import Mathlib

/-!
Verification of the lottina event ingestion pipeline.

The Python sources under apps/ are shallowly embedded as executable Lean
definitions: the persistent store (offers, locations, categories) becomes an
explicit record of lists threaded through the operations, SQLAlchemy query
and flush calls become list lookups and functional updates, and Python
truthiness on optional strings is modelled explicitly.  Each definition
mirrors one function of the source tree; the theorems below settle the
frozen specification claims against these definitions.
-/

set_option autoImplicit false

/-! ## Slug normalisation (apps/api/lottina_api/crawlers/base.py, slugify) -/

/-- Model of Python str.lower restricted to the character classes the
crawlers actually meet: ASCII letters plus the German umlauts.  Other code
points are left unchanged. -/
def pyLowerChar (c : Char) : Char :=
  if c = 'Ä' then 'ä'
  else if c = 'Ö' then 'ö'
  else if c = 'Ü' then 'ü'
  else if 'A' ≤ c && c ≤ 'Z' then Char.ofNat (c.toNat + 32)
  else c

/-- Model of Python str.strip over the character list (String.trim itself
is defined by byte-position recursion that the kernel cannot evaluate). -/
def pyStrip (s : String) : String :=
  String.mk (((s.data.dropWhile Char.isWhitespace).reverse.dropWhile Char.isWhitespace).reverse)

/-- Model of Python character slicing s[:n] over the character list. -/
def strTake (s : String) (n : Nat) : String :=
  String.mk (s.data.take n)

/-- Pointwise lowering of a string, modelling value.lower(). -/
def pyLower (s : String) : String :=
  String.mk (s.data.map pyLowerChar)

/-- The character class of the regular expression [a-z0-9]. -/
def isSlugChar (c : Char) : Bool :=
  ('a' ≤ c && c ≤ 'z') || ('0' ≤ c && c ≤ '9')

/-- One step of re.sub: every character outside [a-z0-9] becomes a dash. -/
def dashify (c : Char) : Char :=
  if isSlugChar c then c else '-'

/-- Collapse adjacent dashes, so that dashify followed by collapse agrees
with re.sub applied to maximal runs of characters outside [a-z0-9]. -/
def collapse : List Char → List Char
  | [] => []
  | [c] => [c]
  | c :: d :: rest =>
    if c = '-' ∧ d = '-' then collapse (d :: rest)
    else c :: collapse (d :: rest)

/-- Model of value.strip with the dash character: drop dashes from both
ends of the character list. -/
def stripDashes (l : List Char) : List Char :=
  (((l.dropWhile (fun c => c == '-')).reverse.dropWhile (fun c => c == '-'))).reverse

/-- Embedding of slugify from crawlers/base.py: strip and lower the input,
replace every maximal run of characters outside [a-z0-9] by a single dash,
strip dashes from both ends, and fall back to the literal kategorie when
nothing remains. -/
def slugify (value : String) : String :=
  let lowered := pyLower (pyStrip value)
  let subbed := stripDashes (collapse (lowered.data.map dashify))
  let stripped := String.mk subbed
  if stripped = "" then "kategorie" else stripped

/-- The shape claimed for slug values: non-empty, only lowercase ASCII
alphanumerics and dashes, no dash at either end, and no two adjacent
dashes — that is, alphanumeric words separated by single dashes. -/
def IsSlug (s : String) : Prop :=
  s.data ≠ [] ∧
  (∀ c ∈ s.data, isSlugChar c = true ∨ c = '-') ∧
  s.data.head? ≠ some '-' ∧
  s.data.getLast? ≠ some '-' ∧
  List.Chain' (fun a b => ¬(a = '-' ∧ b = '-')) s.data

/-! ## Data model and merge engine (apps/api/lottina_api/crawlers/base.py)

The persistent store is modelled as explicit lists of rows; SQLAlchemy
one_or_none queries become find? on those lists, session.add becomes an
append, and in-place mutation of a fetched row becomes a functional map
over the list.  Python truthiness of an optional string (None or the empty
string are falsy) is modelled by truthyStr.  Datetime values are opaque
and modelled as natural numbers; the sha256 location fingerprint is
modelled by its preimage string, which is injective where the real hash is
collision-free, and all claims depend only on fingerprint equality. -/

/-- Python truthiness of an optional string: None and the empty string are
falsy. -/
def truthyStr : Option String → Bool
  | some s => !(s == "")
  | none => false

/-- Python x or y for plain strings: the empty string is falsy. -/
def pyOrString (a b : String) : String :=
  if a = "" then b else a

/-- Transfer record produced by an extractor (dataclass EventPayload). -/
structure EventPayload where
  external_id : String
  title : String
  description : String
  source_url : String
  summary : Option String := none
  image_url : Option String := none
  dt_start : Option Nat := none
  dt_end : Option Nat := none
  location_name : Option String := none
  location_address : Option String := none
  location_city : Option String := none
  categories : List String := []
  price_text : Option String := none
  is_free : Option Bool := none
  is_outdoor : Option Bool := none
deriving DecidableEq

/-- Durable Offer row (models.py), restricted to the columns the crawler
persistence path reads or writes.  The location foreign key is modelled by
the fingerprint of the referenced Location row and the category
association by the list of associated category slugs. -/
structure Offer where
  external_id : String
  source : String
  source_name : String
  source_type : String
  source_url : String
  title : String
  offer_type : String
  description : String := ""
  summary : Option String := none
  image : Option String := none
  dt_start : Option Nat := none
  dt_end : Option Nat := none
  is_free : Option Bool := none
  is_outdoor : Option Bool := none
  location_fp : Option String := none
  category_slugs : List String := []
deriving DecidableEq

/-- Durable Location row (models.py). -/
structure Location where
  fingerprint : String
  name : Option String
  address : Option String
  city : Option String
deriving DecidableEq

/-- Durable Category row (models.py). -/
structure Category where
  slug : String
  name : String
deriving DecidableEq

/-- The shared store: offers, locations and categories. -/
structure DB where
  offers : List Offer := []
  locations : List Location := []
  categories : List Category := []
deriving DecidableEq

/-- The string hashed into the location fingerprint: the lowercased
pipe-join of name, address and city, each defaulted to the empty string
(the sha256 hexdigest itself is modelled by this preimage). -/
def fingerprintSource (p : EventPayload) : String :=
  pyLower (String.intercalate "|" [p.location_name.getD "", p.location_address.getD "", p.location_city.getD ""])

/-- Merge step of BaseCrawler._upsert_location for an existing row: each
field is filled from the payload only when the payload value is truthy and
the current value is falsy. -/
def mergeLocation (p : EventPayload) (l : Location) : Location :=
  { l with
    name := if truthyStr p.location_name && !(truthyStr l.name) then p.location_name else l.name
    address := if truthyStr p.location_address && !(truthyStr l.address) then p.location_address else l.address
    city := if truthyStr p.location_city && !(truthyStr l.city) then p.location_city else l.city }

/-- Embedding of BaseCrawler._upsert_location: nothing to do when all
three location fields are falsy; otherwise find-or-insert by fingerprint,
merging only falsy fields of an existing row.  Returns the fingerprint of
the attached row, standing for the returned Location object. -/
def upsert_location (p : EventPayload) (db : DB) : Option String × DB :=
  if !(truthyStr p.location_name || truthyStr p.location_address || truthyStr p.location_city) then
    (none, db)
  else
    let fp := fingerprintSource p
    match db.locations.find? (fun l => l.fingerprint == fp) with
    | none =>
      let loc : Location := ⟨fp, p.location_name, p.location_address, p.location_city⟩
      (some fp, { db with locations := db.locations ++ [loc] })
    | some _ =>
      (some fp, { db with locations := db.locations.map (fun l => if l.fingerprint == fp then mergeLocation p l else l) })

/-- Embedding of BaseCrawler._get_or_create_category: find-or-insert by
slug; the display name is only stored on insert. -/
def get_or_create_category (name : String) (db : DB) : Category × DB :=
  let slug := slugify name
  match db.categories.find? (fun c => c.slug == slug) with
  | some c => (c, db)
  | none =>
    let c : Category := ⟨slug, pyStrip name⟩
    (c, { db with categories := db.categories ++ [c] })

/-- The category list comprehension of _persist_event, threading the store
through get_or_create_category. -/
def get_categories : List String → DB → List Category × DB
  | [], db => ([], db)
  | n :: rest, db =>
    let r1 := get_or_create_category n db
    let r2 := get_categories rest r1.2
    (r1.1 :: r2.1, r2.2)

/-- The unconditional field assignments of _persist_event (the block
between the create branch and the location upsert): title, description,
summary, source URL, image, timestamps and flags, followed by the price
text fallback into an empty summary. -/
def applyPayload (p : EventPayload) (offer0 : Offer) : Offer :=
  let sum0 := strTake (if truthyStr p.summary then p.summary.getD "" else strTake (pyOrString p.description "") 380) 400
  let offer1 := { offer0 with
    title := p.title
    description := p.description
    summary := some sum0
    source_url := p.source_url
    image := if truthyStr p.image_url then p.image_url else offer0.image
    dt_start := p.dt_start
    dt_end := p.dt_end
    is_free := match p.is_free with | some b => some b | none => offer0.is_free
    is_outdoor := match p.is_outdoor with | some b => some b | none => offer0.is_outdoor }
  if truthyStr p.price_text && !(truthyStr offer1.summary) then
    { offer1 with summary := some (strTake (p.price_text.getD "") 400) }
  else offer1

/-- Attach the upserted Location, when one was found or created. -/
def attachLoc (locFp : Option String) (o : Offer) : Offer :=
  match locFp with
  | some fp => { o with location_fp := some fp }
  | none => o

/-- Replace the category association, but only when the payload category
list is non-empty (an empty list leaves the association untouched). -/
def setCats (p : EventPayload) (cats : List Category) (o : Offer) : Offer :=
  if p.categories.isEmpty then o
  else { o with category_slugs := cats.map (fun c => c.slug) }

/-- The category stage of _persist_event: only a non-empty payload
category list runs the find-or-insert comprehension over its non-empty
labels. -/
def persistCats (p : EventPayload) (db1 : DB) : List Category × DB :=
  if p.categories.isEmpty then ([], db1)
  else get_categories (p.categories.filter (fun n => !(n == ""))) db1

/-- Embedding of BaseCrawler._persist_event: look up the Offer by the
canonical external identity, create it when absent, assign the descriptive
fields, attach the upserted location when present, replace the category
association when the payload carries a non-empty category list, and
report created or updated. -/
def persist_event (source_slug source_name : String) (p : EventPayload) (db : DB) : String × DB :=
  let external_id := source_slug ++ ":" ++ p.external_id
  let existing := db.offers.find? (fun o => o.external_id == external_id)
  let offer0 : Offer :=
    match existing with
    | some o => o
    | none =>
      { external_id := external_id, source := source_slug, source_name := source_name,
        source_type := "crawler", source_url := p.source_url, title := p.title,
        offer_type := "event" }
  let locr := upsert_location p db
  let catr := persistCats p locr.2
  let offer := setCats p catr.1 (attachLoc locr.1 (applyPayload p offer0))
  let db3 :=
    if existing.isNone then { catr.2 with offers := catr.2.offers ++ [offer] }
    else { catr.2 with offers := catr.2.offers.map (fun o => if o.external_id == external_id then offer else o) }
  (if existing.isNone then "created" else "updated", db3)

/-- Embedding of BaseCrawler.run: persist every fetched payload in order
and count created and updated rows. -/
def runCrawler (source_slug source_name : String) : List EventPayload → DB → Nat × Nat × DB
  | [], db => (0, 0, db)
  | p :: rest, db =>
    let r1 := persist_event source_slug source_name p db
    let r2 := runCrawler source_slug source_name rest r1.2
    ((if r1.1 = "created" then 1 else 0) + r2.1, (if r1.1 = "updated" then 1 else 0) + r2.2.1, r2.2.2)

/-- The canonical identity of the Offer produced for a payload. -/
def offerKey (source_slug : String) (p : EventPayload) : String :=
  source_slug ++ ":" ++ p.external_id

/-- The external identities of all Offer rows, in row order. -/
def offersKeys (db : DB) : List String :=
  db.offers.map (fun o => o.external_id)

/-! ## Listing paginator (aachen_family.py and gruen_metropole.py, fetch)

Both crawlers paginate identically: a page counter starting at 1, a
run-local seen set of detail URLs, a break on a page with no items, and a
break on a page contributing zero unseen detail links.  The HTML parsing
is abstracted: a listing page is the list of its item cards, each carrying
the optional href of its detail link, and the page source is a function
from page number to item list.  Detail extraction plays no part in the
loop control, so the yielded sequence is modelled by the detail URLs.  The
unbounded while loop is made total by a fuel argument: a some result means
the loop exited through one of its break statements, none means the fuel
ran out before it did. -/

/-- One item card of a listing page, reduced to its detail link. -/
structure ListingItem where
  href : Option String
deriving DecidableEq

/-- The body of the for loop over the items of one fetched page: skip
items without a truthy href, join the href against the listing URL, skip
detail URLs already seen, and otherwise record and yield the URL.
Returns the newly yielded URLs in order together with the grown seen
set. -/
def processItems (join : String → String) : List ListingItem → List String → List String × List String
  | [], seen => ([], seen)
  | it :: rest, seen =>
    match it.href with
    | none => processItems join rest seen
    | some h =>
      if h = "" then processItems join rest seen
      else
        let u := join h
        if u ∈ seen then processItems join rest seen
        else
          let r := processItems join rest (u :: seen)
          (u :: r.1, r.2)

/-- The paginator loop of fetch: fetch page, break on an empty item list,
process the items, break when no item was new, else advance the page.
Returns the number of the last fetched page and the yielded detail URLs,
or none when the fuel ran out. -/
def fetchPages (pages : Nat → List ListingItem) (join : String → String) :
    Nat → Nat → List String → List String → Option (Nat × List String)
  | 0, _, _, _ => none
  | fuel + 1, page, seen, acc =>
    let items := pages page
    if items.isEmpty then some (page, acc)
    else
      let r := processItems join items seen
      if r.1.isEmpty then some (page, acc)
      else fetchPages pages join fuel (page + 1) r.2 (acc ++ r.1)

/-- fetch itself: the loop started at page 1 with an empty seen set. -/
def crawlerFetch (pages : Nat → List ListingItem) (join : String → String) (fuel : Nat) :
    Option (Nat × List String) :=
  fetchPages pages join fuel 1 [] []

/-! ## Geocoding resolver (apps/worker/utils/geocoding.py)

A provider call can return a hit, return no result, or raise; the three
outcomes are the constructors of ProviderOutcome, so geocode_address is a
total function and the absence of an escaping exception is structural.
The provider implementations (network, JSON decoding, rate-limit sleeps)
are abstracted as outcome functions; the ambient Settings dictionary
becomes an explicit GeoSettings value. -/

/-- The normalized result a provider hands back (coordinates modelled
opaquely as integers). -/
structure GeoResult where
  lat : Int
  lon : Int
  display_name : String
deriving DecidableEq

/-- Outcome of one provider call: a truthy result dict, a falsy result
(None), or a raised exception. -/
inductive ProviderOutcome where
  | found : GeoResult → ProviderOutcome
  | empty : ProviderOutcome
  | raised : ProviderOutcome
deriving DecidableEq

/-- The Settings keys geocode_address reads, with their defaults. -/
structure GeoSettings where
  enrich_geocode : Bool := true
  geocoder : Option String := none
  allow_fallback : Bool := true
deriving DecidableEq

/-- The provider loop of geocode_address: return the first truthy result,
treat a raised exception or a falsy result as fall-through to the next
provider, and return None when the order is exhausted. -/
def tryProviders (query : String) : List (String → ProviderOutcome) → Option GeoResult
  | [] => none
  | fn :: rest =>
    match fn query with
    | ProviderOutcome.found r => some r
    | ProviderOutcome.empty => tryProviders query rest
    | ProviderOutcome.raised => tryProviders query rest

/-- Embedding of geocode_address: nothing for a falsy query or when
enrichment is disabled; otherwise build the provider order from the
preferred provider name and the fallback toggle and run the loop. -/
def geocode_address (settings : GeoSettings) (nominatim photon : String → ProviderOutcome)
    (query : String) : Option GeoResult :=
  if query = "" || !settings.enrich_geocode then none
  else
    let preferred := pyLower (pyOrString (settings.geocoder.getD "") "nominatim")
    let try_order :=
      if preferred = "nominatim" then
        (if settings.allow_fallback then [nominatim, photon] else [nominatim])
      else if preferred = "photon" then
        (if settings.allow_fallback then [photon, nominatim] else [photon])
      else [nominatim, photon]
    tryProviders query try_order

/-! ## Pipeline orchestrator (apps/worker/worker.py)

run_slug sequences the five stages and builds the report dict; run_all
loops over slugs, catching a whole-slug failure as one error entry.  The
stage implementations live in apps/worker/tasks and are collaborators of
the orchestrator, so they are parameters of the model (a Stages record,
and for run_all an Except-valued runner standing for the possibly raising
run_slug call).  Clock readings are string parameters; writing the JSON
report to disk is outside the model, but the literal key lists of the two
report dicts are recorded for the shape claims. -/

/-- One row of the fetch_listing result; run_slug only reads its url. -/
structure ListingRow where
  url : String
deriving DecidableEq

/-- The counters upsert_rows returns (dict with get defaults 0). -/
structure UpsertStats where
  inserted : Nat := 0
  updated : Nat := 0
  skipped : Nat := 0
  errors : Nat := 0
  error_samples : List String := []
deriving DecidableEq

/-- The five pipeline stage functions run_slug delegates to. -/
structure Stages where
  fetch_listing : String → List ListingRow
  extract_details : String → List String → List EventPayload
  normalize_rows : String → List EventPayload → List EventPayload
  enrich_rows : List EventPayload → List EventPayload
  upsert_rows : List EventPayload → UpsertStats

/-- Python list slicing urls[:n] for an arbitrary integer bound: a
non-negative bound takes a prefix, a negative bound drops that many
elements from the end. -/
def pySliceTake (n : Int) (l : List String) : List String :=
  if 0 ≤ n then l.take n.toNat else l.take (l.length - (-n).toNat)

/-- The per-slug run report (the dict literal of run_slug). -/
structure RunReport where
  slug : String
  found : Nat
  processed : Nat
  inserted : Nat
  updated : Nat
  skipped : Nat
  errors : Nat
  error_samples : List String
  timestamp : String
deriving DecidableEq

/-- The keys of the run_slug report dict, in source order. -/
def runReportKeys : List String :=
  ["slug", "found", "processed", "inserted", "updated", "skipped", "errors", "error_samples", "timestamp"]

/-- Embedding of run_slug: fetch the listing, truncate the url list only
when the caller limit is truthy (None and 0 are falsy), run the remaining
stages on the truncated list, and assemble the report with found counting
the full listing and processed the truncated list. -/
def run_slug (st : Stages) (now_utc : String) (slug : String) (limit : Option Int) : RunReport :=
  let listing := st.fetch_listing slug
  let urls0 := listing.map (fun r => r.url)
  let urls :=
    match limit with
    | none => urls0
    | some n => if n = 0 then urls0 else pySliceTake n urls0
  let extracted := st.extract_details slug urls
  let normalized := st.normalize_rows slug extracted
  let enriched := st.enrich_rows normalized
  let stats := st.upsert_rows enriched
  { slug := slug, found := listing.length, processed := urls.length,
    inserted := stats.inserted, updated := stats.updated, skipped := stats.skipped,
    errors := stats.errors, error_samples := stats.error_samples.take 3,
    timestamp := now_utc }

/-- One by_slug entry of the batch summary: a full per-slug report, or
the two-key failure dict for a slug whose whole run raised. -/
inductive BySlugEntry where
  | report : RunReport → BySlugEntry
  | failure : String → String → BySlugEntry
deriving DecidableEq

/-- The batch summary dict of run_all. -/
structure BatchSummary where
  total_found : Nat
  total_processed : Nat
  inserted : Nat
  updated : Nat
  skipped : Nat
  errors : Nat
  by_slug : List BySlugEntry
  timestamp : String
deriving DecidableEq

/-- The keys of the run_all summary dict, in source order. -/
def batchSummaryKeys : List String :=
  ["total_found", "total_processed", "inserted", "updated", "skipped", "errors", "by_slug", "timestamp"]

/-- One iteration of the run_all loop: on success append the report and
add its counts, on a raised exception append the failure entry and count
one error. -/
def runAllStep (runOne : String → Except String RunReport) (acc : BatchSummary) (s : String) :
    BatchSummary :=
  match runOne s with
  | Except.ok res =>
    { acc with
      by_slug := acc.by_slug ++ [BySlugEntry.report res],
      total_found := acc.total_found + res.found,
      total_processed := acc.total_processed + res.processed,
      inserted := acc.inserted + res.inserted,
      updated := acc.updated + res.updated,
      skipped := acc.skipped + res.skipped,
      errors := acc.errors + res.errors }
  | Except.error e =>
    { acc with by_slug := acc.by_slug ++ [BySlugEntry.failure s e], errors := acc.errors + 1 }

/-- Embedding of run_all: fold the loop body over the slug list starting
from the zeroed summary (the timestamp is read from the local, not UTC,
clock in the source; the clock reading is a parameter here). -/
def run_all (runOne : String → Except String RunReport) (now_local : String)
    (slugs : List String) : BatchSummary :=
  slugs.foldl (runAllStep runOne)
    { total_found := 0, total_processed := 0, inserted := 0, updated := 0,
      skipped := 0, errors := 0, by_slug := [], timestamp := now_local }

/-- The by_slug entry run_all records for one slug: the report on
success, the two-key failure dict on a raised exception. -/
def entryOf (runOne : String → Except String RunReport) (s : String) : BySlugEntry :=
  match runOne s with
  | Except.ok r => BySlugEntry.report r
  | Except.error e => BySlugEntry.failure s e

/-- The successful reports of a batch, in slug order. -/
def okReports (runOne : String → Except String RunReport) (slugs : List String) : List RunReport :=
  slugs.filterMap (fun s =>
    match runOne s with
    | Except.ok r => some r
    | Except.error _ => none)

/-- The summary value _persist_event computes for a payload: the truthy
payload summary, else the first 380 characters of the description, capped
at 400, with the price text substituted when the result is still empty. -/
def summaryOf (p : EventPayload) : String :=
  let sum0 := strTake (if truthyStr p.summary then p.summary.getD "" else strTake (pyOrString p.description "") 380) 400
  if truthyStr p.price_text && !(truthyStr (some sum0)) then strTake (p.price_text.getD "") 400 else sum0

/-! ## Concrete fixtures used by the closed theorems below -/

/-- A location-bearing payload whose fingerprint matches locEmptyAddr and
locNullAddr below. -/
def pLoc : EventPayload :=
  { external_id := "1", title := "t", description := "d", source_url := "u",
    location_name := some "N", location_address := some "Hauptstraße 1",
    location_city := some "Other" }

/-- An existing Location row holding an empty (non-null) address under the
fingerprint pLoc produces. -/
def locEmptyAddr : Location :=
  { fingerprint := fingerprintSource pLoc, name := some "N", address := some "",
    city := some "Aachen" }

/-- An existing Location row with a null address and a populated city
under the fingerprint pLoc produces. -/
def locNullAddr : Location :=
  { fingerprint := fingerprintSource pLoc, name := some "N", address := none,
    city := some "Aachen" }

/-- An existing Offer row with populated flags, image and categories. -/
def oldOffer : Offer :=
  { external_id := "s:1", source := "s", source_name := "n", source_type := "crawler",
    source_url := "u0", title := "t0", offer_type := "event", description := "d0",
    summary := some "sum0", image := some "img0", is_free := some true,
    is_outdoor := some false, category_slugs := ["musik"] }

/-- A re-crawl payload for the same identity carrying no flags, no image
and an empty category list. -/
def bareUpdate : EventPayload :=
  { external_id := "1", title := "T", description := "D", source_url := "u1",
    dt_start := some 5, categories := [] }

/-- A re-crawl payload for the same identity carrying two category labels
that differ only by a diacritic, plus an empty label. -/
def catUpdate : EventPayload :=
  { external_id := "1", title := "T", description := "D", source_url := "u1",
    categories := ["Öffentlich", "", "offentlich"] }

/-- A single-payload fixture for the idempotence witness. -/
def pIdem : EventPayload :=
  { external_id := "42", title := "Stadtfest", description := "desc", source_url := "u",
    location_city := some "Aachen", categories := ["Musik"], is_free := some true }

/-- Listing pages for the pagination witness: page 1 serves one link,
every later page re-serves the same second link (page 3 duplicates
page 2, forever). -/
def exPages : Nat → List ListingItem :=
  fun n => if n = 1 then [⟨some "a"⟩] else [⟨some "b"⟩]

/-- A geocoding hit for the fallback witness. -/
def exHit : GeoResult := { lat := 1, lon := 2, display_name := "Marktplatz, Aachen" }

/-- A primary provider that always raises. -/
def exNominatim : String → ProviderOutcome := fun _ => ProviderOutcome.raised

/-- A secondary provider that resolves exactly the witness query. -/
def exPhoton : String → ProviderOutcome :=
  fun q => if q = "Marktplatz, Aachen" then ProviderOutcome.found exHit else ProviderOutcome.raised

/-- Stage functions serving two listing rows, for the limit fixtures. -/
def exStages : Stages :=
  { fetch_listing := fun _ => [⟨"u1"⟩, ⟨"u2"⟩],
    extract_details := fun _ urls => urls.map (fun u => { external_id := u, title := u, description := "", source_url := u }),
    normalize_rows := fun _ rows => rows,
    enrich_rows := fun rows => rows,
    upsert_rows := fun rows => { inserted := rows.length } }

/-- A per-slug report fixture for the batch aggregation witness. -/
def exReport : RunReport :=
  { slug := "a", found := 3, processed := 2, inserted := 1, updated := 1, skipped := 0,
    errors := 1, error_samples := ["e1"], timestamp := "t" }

/-- A batch runner whose slug bad raises and whose other slugs succeed. -/
def exRunOne : String → Except String RunReport :=
  fun s => if s = "bad" then Except.error "boom" else Except.ok exReport

/-- The Offer row expected after upserting bareUpdate over oldOffer. -/
def updOffer : Offer :=
  { external_id := "s:1", source := "s", source_name := "n", source_type := "crawler",
    source_url := "u1", title := "T", offer_type := "event", description := "D",
    summary := some "D", image := some "img0", dt_start := some 5, dt_end := none,
    is_free := some true, is_outdoor := some false, location_fp := none,
    category_slugs := ["musik"] }

/-- The Offer row expected after upserting catUpdate over oldOffer. -/
def catUpdOffer : Offer :=
  { external_id := "s:1", source := "s", source_name := "n", source_type := "crawler",
    source_url := "u1", title := "T", offer_type := "event", description := "D",
    summary := some "D", image := some "img0", dt_start := none, dt_end := none,
    is_free := some true, is_outdoor := some false, location_fp := none,
    category_slugs := ["ffentlich", "offentlich"] }

/-! ## Theorems: slug normalisation -/

theorem mem_collapse {c : Char} : ∀ {l : List Char}, c ∈ collapse l → c ∈ l := by
  intro l
  induction l with
  | nil => simp [collapse]
  | cons a rest ih =>
    cases rest with
    | nil => simp [collapse]
    | cons b rest2 =>
      simp only [collapse]
      split
      · intro h
        exact List.mem_cons_of_mem a (ih h)
      · intro h
        rcases List.mem_cons.mp h with h1 | h2
        · exact h1 ▸ List.mem_cons_self a _
        · exact List.mem_cons_of_mem a (ih h2)

theorem collapse_head : ∀ (l : List Char) (a : Char), (collapse (a :: l)).head? = some a := by
  intro l
  induction l with
  | nil => intro a; rfl
  | cons b rest ih =>
    intro a
    simp only [collapse]
    split
    · rename_i hcond
      rw [ih b]
      rw [hcond.1, hcond.2]
    · rfl

theorem chain'_collapse : ∀ (l : List Char),
    List.Chain' (fun a b => ¬(a = '-' ∧ b = '-')) (collapse l) := by
  intro l
  induction l with
  | nil => simp [collapse]
  | cons a rest ih =>
    cases rest with
    | nil => simp [collapse]
    | cons b rest2 =>
      simp only [collapse]
      split
      · exact ih
      · rename_i hcond
        rw [List.chain'_cons']
        refine ⟨?_, ih⟩
        intro y hy
        rw [collapse_head rest2 b] at hy
        cases hy
        exact fun hab => hcond ⟨hab.1, hab.2⟩

theorem head?_dropWhile_dash (l : List Char) :
    (l.dropWhile (fun c => c == '-')).head? ≠ some '-' := by
  induction l with
  | nil => simp [List.dropWhile]
  | cons a rest ih =>
    rw [List.dropWhile_cons]
    split
    · exact ih
    · rename_i h
      simp only [List.head?_cons, ne_eq, Option.some.injEq]
      intro hcontra
      exact h (by rw [hcontra]; rfl)

theorem dashify_mem {c : Char} {l : List Char} (h : c ∈ l.map dashify) :
    isSlugChar c = true ∨ c = '-' := by
  rcases List.mem_map.mp h with ⟨a, _, rfl⟩
  unfold dashify
  split
  · rename_i hs
    exact Or.inl hs
  · exact Or.inr rfl

theorem chain'_dash_reverse {l : List Char}
    (h : List.Chain' (fun a b => ¬(a = '-' ∧ b = '-')) l) :
    List.Chain' (fun a b => ¬(a = '-' ∧ b = '-')) l.reverse := by
  rw [List.chain'_reverse]
  exact h.imp (fun a b hab => fun hcontra => hab ⟨hcontra.2, hcontra.1⟩)

theorem stripDashes_subset (l : List Char) : stripDashes l ⊆ l := by
  unfold stripDashes
  intro c hc
  rw [List.mem_reverse] at hc
  have h1 := (List.dropWhile_suffix (l := (l.dropWhile (fun c => c == '-')).reverse)
    (fun c => c == '-')).subset hc
  rw [List.mem_reverse] at h1
  exact (List.dropWhile_suffix (fun c => c == '-')).subset h1

theorem stripDashes_head (l : List Char) : (stripDashes l).head? ≠ some '-' := by
  unfold stripDashes
  set front := l.dropWhile (fun c => c == '-') with hfront
  set t := front.reverse.dropWhile (fun c => c == '-') with ht
  rw [List.head?_reverse]
  cases htl : t.getLast? with
  | none => simp
  | some x =>
    obtain ⟨u, hu⟩ := List.dropWhile_suffix (l := front.reverse) (fun c => c == '-')
    have hx : front.head? = some x := by
      have h2 : front.reverse.getLast? = front.head? := List.getLast?_reverse front
      rw [← h2, ← hu, List.getLast?_append, htl]
      rfl
    have h3 := head?_dropWhile_dash l
    rw [← hfront] at h3
    intro hcontra
    rw [Option.some.injEq] at hcontra
    rw [hcontra] at hx
    exact h3 hx

theorem stripDashes_getLast (l : List Char) : (stripDashes l).getLast? ≠ some '-' := by
  unfold stripDashes
  rw [List.getLast?_reverse]
  exact head?_dropWhile_dash _

theorem stripDashes_chain' {l : List Char}
    (h : List.Chain' (fun a b => ¬(a = '-' ∧ b = '-')) l) :
    List.Chain' (fun a b => ¬(a = '-' ∧ b = '-')) (stripDashes l) := by
  unfold stripDashes
  apply chain'_dash_reverse
  apply List.Chain'.suffix _ (List.dropWhile_suffix (fun c => c == '-'))
  apply chain'_dash_reverse
  exact List.Chain'.suffix h (List.dropWhile_suffix (fun c => c == '-'))

theorem chain'_of_no_dash {l : List Char} (h : ∀ c ∈ l, c ≠ '-') :
    List.Chain' (fun a b => ¬(a = '-' ∧ b = '-')) l :=
  (List.pairwise_of_forall_mem_list (fun a ha _ _ => fun hc => h a ha hc.1)).chain'

/-- The slug shape holds for every slugify output. -/
theorem slugify_isSlug (s : String) : IsSlug (slugify s) := by
  unfold slugify
  set v := (pyLower (pyStrip s)).data.map dashify with hv
  set r := stripDashes (collapse v) with hr
  by_cases hempty : String.mk r = ""
  · rw [if_pos hempty]
    have hnod : ∀ c ∈ "kategorie".data, c ≠ '-' := by decide
    exact ⟨by decide, by decide, by decide, by decide, chain'_of_no_dash hnod⟩
  · rw [if_neg hempty]
    have hdata : (String.mk r).data = r := rfl
    have hrne : r ≠ [] := by
      intro hcontra
      exact hempty (by rw [hcontra])
    refine ⟨by rw [hdata]; exact hrne, ?_, ?_, ?_, ?_⟩
    · intro c hc
      rw [hdata] at hc
      have h1 : c ∈ collapse v := stripDashes_subset _ hc
      exact dashify_mem (hv ▸ mem_collapse h1)
    · rw [hdata]
      exact stripDashes_head _
    · rw [hdata]
      exact stripDashes_getLast _
    · rw [hdata]
      exact stripDashes_chain' (chain'_collapse v)

/-! ## Theorems: merge engine plumbing -/

theorem upsert_location_offers (p : EventPayload) (db : DB) :
    ((upsert_location p db).2).offers = db.offers := by
  simp only [upsert_location]
  split
  · rfl
  · split <;> rfl

theorem get_or_create_category_offers (n : String) (db : DB) :
    ((get_or_create_category n db).2).offers = db.offers := by
  simp only [get_or_create_category]
  split <;> rfl

theorem get_categories_offers : ∀ (ns : List String) (db : DB),
    ((get_categories ns db).2).offers = db.offers := by
  intro ns
  induction ns with
  | nil => intro db; rfl
  | cons n rest ih =>
    intro db
    simp only [get_categories]
    rw [ih, get_or_create_category_offers]

theorem applyPayload_external_id (p : EventPayload) (o : Offer) :
    (applyPayload p o).external_id = o.external_id := by
  simp only [applyPayload]
  split <;> split <;> rfl

theorem attachLoc_external_id (fp : Option String) (o : Offer) :
    (attachLoc fp o).external_id = o.external_id := by
  cases fp <;> rfl

theorem setCats_external_id (p : EventPayload) (cats : List Category) (o : Offer) :
    (setCats p cats o).external_id = o.external_id := by
  simp only [setCats]
  split <;> rfl

theorem persistCats_offers (p : EventPayload) (db1 : DB) :
    ((persistCats p db1).2).offers = db1.offers := by
  simp only [persistCats]
  split
  · rfl
  · rw [get_categories_offers]

theorem persist_event_not_found (slug nm : String) (p : EventPayload) (db : DB)
    (hfind : db.offers.find? (fun o => o.external_id == slug ++ ":" ++ p.external_id) = none) :
    (persist_event slug nm p db).1 = "created" ∧
    offersKeys (persist_event slug nm p db).2 = offersKeys db ++ [slug ++ ":" ++ p.external_id] := by
  simp only [persist_event, hfind, Option.isNone_none, if_true, offersKeys,
    List.map_append, List.map_cons, List.map_nil, persistCats_offers, upsert_location_offers,
    setCats_external_id, attachLoc_external_id, applyPayload_external_id]
  constructor <;> trivial

theorem persist_event_found (slug nm : String) (p : EventPayload) (db : DB) (o : Offer)
    (hfind : db.offers.find? (fun x => x.external_id == slug ++ ":" ++ p.external_id) = some o) :
    (persist_event slug nm p db).1 = "updated" ∧
    offersKeys (persist_event slug nm p db).2 = offersKeys db := by
  have hkey : o.external_id = slug ++ ":" ++ p.external_id := by
    have h := List.find?_some hfind
    simpa using h
  simp only [persist_event, hfind, Option.isNone_some, Bool.false_eq_true, if_false, offersKeys,
    List.map_map, persistCats_offers, upsert_location_offers]
  refine ⟨trivial, ?_⟩
  apply List.map_congr_left
  intro x _
  simp only [Function.comp]
  split
  · rename_i hx
    rw [setCats_external_id, attachLoc_external_id, applyPayload_external_id]
    simp only [beq_iff_eq] at hx
    rw [hkey, hx]
  · rfl

theorem find?_key_isSome (db : DB) (k : String) :
    (db.offers.find? (fun x => x.external_id == k)).isSome ↔ k ∈ offersKeys db := by
  rw [List.find?_isSome]
  constructor
  · rintro ⟨x, hx, hpx⟩
    simp only [beq_iff_eq] at hpx
    exact List.mem_map.mpr ⟨x, hx, hpx⟩
  · intro hm
    rcases List.mem_map.mp hm with ⟨x, hx, hfx⟩
    exact ⟨x, hx, by simp [hfx]⟩

theorem persist_event_spec (slug nm : String) (p : EventPayload) (db : DB) :
    ((persist_event slug nm p db).1
      = if offerKey slug p ∈ offersKeys db then "updated" else "created") ∧
    (offersKeys (persist_event slug nm p db).2
      = if offerKey slug p ∈ offersKeys db then offersKeys db
        else offersKeys db ++ [offerKey slug p]) := by
  cases hfind : db.offers.find? (fun x => x.external_id == slug ++ ":" ++ p.external_id) with
  | none =>
    have hmem : ¬ offerKey slug p ∈ offersKeys db := by
      rw [← find?_key_isSome]
      simp only [offerKey, hfind, Option.isSome_none, Bool.false_eq_true, not_false_iff]
    rcases persist_event_not_found slug nm p db hfind with ⟨h1, h2⟩
    rw [if_neg hmem, if_neg hmem]
    exact ⟨h1, by rw [h2]; rfl⟩
  | some o =>
    have hmem : offerKey slug p ∈ offersKeys db := by
      rw [← find?_key_isSome]
      simp only [offerKey, hfind, Option.isSome_some]
    rcases persist_event_found slug nm p db o hfind with ⟨h1, h2⟩
    rw [if_pos hmem, if_pos hmem]
    exact ⟨h1, h2⟩

theorem persist_mem_mono (slug nm : String) (p : EventPayload) (db : DB) (k : String)
    (h : k ∈ offersKeys db) : k ∈ offersKeys (persist_event slug nm p db).2 := by
  rw [(persist_event_spec slug nm p db).2]
  split
  · exact h
  · exact List.mem_append_left _ h

theorem persist_mem_self (slug nm : String) (p : EventPayload) (db : DB) :
    offerKey slug p ∈ offersKeys (persist_event slug nm p db).2 := by
  rw [(persist_event_spec slug nm p db).2]
  split
  · assumption
  · exact List.mem_append_right _ (List.mem_singleton.mpr rfl)

theorem persist_nodup (slug nm : String) (p : EventPayload) (db : DB)
    (h : (offersKeys db).Nodup) : (offersKeys (persist_event slug nm p db).2).Nodup := by
  rw [(persist_event_spec slug nm p db).2]
  split
  · exact h
  · rename_i hmem
    rw [List.nodup_append]
    exact ⟨h, List.nodup_singleton _, by
      intro a ha hb
      rw [List.mem_singleton] at hb
      exact hmem (hb ▸ ha)⟩

theorem runCrawler_mem_mono (slug nm : String) :
    ∀ (ps : List EventPayload) (db : DB) (k : String),
      k ∈ offersKeys db → k ∈ offersKeys (runCrawler slug nm ps db).2.2 := by
  intro ps
  induction ps with
  | nil => intro db k h; exact h
  | cons p rest ih =>
    intro db k h
    simp only [runCrawler]
    exact ih _ k (persist_mem_mono slug nm p db k h)

theorem runCrawler_mem (slug nm : String) :
    ∀ (ps : List EventPayload) (db : DB) (p : EventPayload),
      p ∈ ps → offerKey slug p ∈ offersKeys (runCrawler slug nm ps db).2.2 := by
  intro ps
  induction ps with
  | nil => intro db p h; cases h
  | cons q rest ih =>
    intro db p h
    simp only [runCrawler]
    rcases List.mem_cons.mp h with h1 | h2
    · exact runCrawler_mem_mono slug nm rest _ _ (h1 ▸ persist_mem_self slug nm q db)
    · exact ih _ p h2

theorem runCrawler_nodup (slug nm : String) :
    ∀ (ps : List EventPayload) (db : DB),
      (offersKeys db).Nodup → (offersKeys (runCrawler slug nm ps db).2.2).Nodup := by
  intro ps
  induction ps with
  | nil => intro db h; exact h
  | cons p rest ih =>
    intro db h
    simp only [runCrawler]
    exact ih _ (persist_nodup slug nm p db h)

theorem runCrawler_created_zero (slug nm : String) :
    ∀ (ps : List EventPayload) (db : DB),
      (∀ p ∈ ps, offerKey slug p ∈ offersKeys db) → (runCrawler slug nm ps db).1 = 0 := by
  intro ps
  induction ps with
  | nil => intro db _; rfl
  | cons p rest ih =>
    intro db h
    simp only [runCrawler]
    have hst : (persist_event slug nm p db).1 = "updated" := by
      rw [(persist_event_spec slug nm p db).1, if_pos (h p (List.mem_cons_self p rest))]
    rw [hst]
    have hrest : ∀ q ∈ rest, offerKey slug q ∈ offersKeys (persist_event slug nm p db).2 :=
      fun q hq => persist_mem_mono slug nm p db _ (h q (List.mem_cons_of_mem p hq))
    rw [ih _ hrest]
    decide

theorem stripDashes_all_dash {m : List Char} (h : ∀ c ∈ m, c = '-') : stripDashes m = [] := by
  unfold stripDashes
  have h1 : m.dropWhile (fun c => c == '-') = [] := by
    rw [List.dropWhile_eq_nil_iff]
    intro x hx
    simp [h x hx]
  rw [h1]
  rfl

/-- C10: slugify is total and never empty: every output is a non-empty
string of lowercase ASCII alphanumeric words separated by single hyphens,
and every input whose stripped, lowered form contains no ASCII lowercase
letter or digit collapses to the constant kategorie. -/
theorem slugify_total_never_empty (s : String) :
    (¬ slugify s = "" ∧ IsSlug (slugify s))
  ∧ ((pyLower (pyStrip s)).data.all (fun c => !(isSlugChar c)) = true → slugify s = "kategorie") := by
  constructor
  · refine ⟨?_, slugify_isSlug s⟩
    intro hcontra
    have h1 := (slugify_isSlug s).1
    rw [hcontra] at h1
    exact h1 rfl
  · intro hall
    rw [List.all_eq_true] at hall
    have hdash : ∀ c ∈ collapse ((pyLower (pyStrip s)).data.map dashify), c = '-' := by
      intro c hc
      have hmem := mem_collapse hc
      rcases List.mem_map.mp hmem with ⟨a, ha, rfl⟩
      have hna := hall a ha
      simp only [Bool.not_eq_true'] at hna
      simp [dashify, hna]
    have hnil := stripDashes_all_dash hdash
    simp [slugify, hnil]

/-- C10 witness: the purely diacritic label collapses to kategorie, which
is itself a non-empty well-shaped slug. -/
theorem slugify_total_never_empty_witness :
    (¬ slugify "Öü" = "" ∧ IsSlug (slugify "Öü")) ∧ slugify "Öü" = "kategorie" :=
  ⟨(slugify_total_never_empty "Öü").1, (slugify_total_never_empty "Öü").2 (by decide)⟩

/-- C3 counterexample: slugify does not transliterate diacritics before
folding; the umlaut of Öffentlich is dropped, so the two labels resolve to
different slugs, not both to offentlich. -/
theorem slugify_no_transliteration :
    slugify "Öffentlich" = "ffentlich" ∧ slugify "offentlich" = "offentlich"
  ∧ slugify "Öffentlich" ≠ slugify "offentlich" := by
  refine ⟨?_, ?_, ?_⟩ <;> decide

/-- C3 (amended): category slug normalisation strips characters outside
[a-z0-9] without transliteration, so Öffentlich folds to ffentlich while
offentlich stays offentlich, and upserting both labels creates two
distinct Category rows. -/
theorem slugify_diacritics_two_categories :
    slugify "Öffentlich" = "ffentlich" ∧ slugify "offentlich" = "offentlich"
  ∧ (((get_or_create_category "offentlich"
        ((get_or_create_category "Öffentlich" ({} : DB)).2)).2).categories.map (fun c => c.slug))
      = ["ffentlich", "offentlich"] := by
  refine ⟨?_, ?_, ?_⟩ <;> decide

/-- C1: upsert is idempotent in identity: a second upsert of the same
(source slug, source-local id) finds the existing Offer, reports updated
and leaves the set of Offer identities unchanged; running the same
payload list twice reports zero created on the second run and leaves
exactly one Offer per canonical identity. -/
theorem upsert_idempotent_identity (slug nm : String) (p q : EventPayload)
    (payloads : List EventPayload) (db : DB)
    (hq : q.external_id = p.external_id)
    (hnodup : (offersKeys db).Nodup) :
    ((persist_event slug nm q ((persist_event slug nm p db).2)).1 = "updated")
  ∧ (offersKeys ((persist_event slug nm q ((persist_event slug nm p db).2)).2)
      = offersKeys ((persist_event slug nm p db).2))
  ∧ ((runCrawler slug nm payloads ((runCrawler slug nm payloads db).2.2)).1 = 0)
  ∧ (∀ r ∈ payloads,
      List.count (offerKey slug r)
        (offersKeys ((runCrawler slug nm payloads
          ((runCrawler slug nm payloads db).2.2)).2.2)) = 1) := by
  have hkq : offerKey slug q = offerKey slug p := by
    simp [offerKey, hq]
  have hmem : offerKey slug q ∈ offersKeys (persist_event slug nm p db).2 := by
    rw [hkq]
    exact persist_mem_self slug nm p db
  refine ⟨?_, ?_, ?_, ?_⟩
  · rw [(persist_event_spec slug nm q _).1, if_pos hmem]
  · rw [(persist_event_spec slug nm q _).2, if_pos hmem]
  · exact runCrawler_created_zero slug nm payloads _
      (fun r hr => runCrawler_mem slug nm payloads db r hr)
  · intro r hr
    apply List.count_eq_one_of_mem
    · exact runCrawler_nodup slug nm payloads _ (runCrawler_nodup slug nm payloads db hnodup)
    · exact runCrawler_mem_mono slug nm payloads _ _ (runCrawler_mem slug nm payloads db r hr)

/-- C1 witness: the idempotence theorem applied to one concrete payload
over the empty store. -/
theorem upsert_idempotent_identity_witness :
    ((persist_event "s" "n" pIdem ((persist_event "s" "n" pIdem ({} : DB)).2)).1 = "updated")
  ∧ (offersKeys ((persist_event "s" "n" pIdem ((persist_event "s" "n" pIdem ({} : DB)).2)).2)
      = offersKeys ((persist_event "s" "n" pIdem ({} : DB)).2))
  ∧ ((runCrawler "s" "n" [pIdem] ((runCrawler "s" "n" [pIdem] ({} : DB)).2.2)).1 = 0)
  ∧ (∀ r ∈ [pIdem],
      List.count (offerKey "s" r)
        (offersKeys ((runCrawler "s" "n" [pIdem]
          ((runCrawler "s" "n" [pIdem] ({} : DB)).2.2)).2.2)) = 1) :=
  upsert_idempotent_identity "s" "n" pIdem pIdem [pIdem] {} rfl (by decide)

theorem truthyStr_none : truthyStr none = false := rfl

theorem mergeLocation_fingerprint (p : EventPayload) (l : Location) :
    (mergeLocation p l).fingerprint = l.fingerprint := rfl

theorem find?_map_merge (p : EventPayload) (fp : String) :
    ∀ (locs : List Location) (loc : Location),
      locs.find? (fun l => l.fingerprint == fp) = some loc →
      (locs.map (fun l => if l.fingerprint == fp then mergeLocation p l else l)).find?
        (fun l => l.fingerprint == fp) = some (mergeLocation p loc) := by
  intro locs
  induction locs with
  | nil => intro loc h; cases h
  | cons l0 rest ih =>
    intro loc h
    by_cases h0 : (l0.fingerprint == fp) = true
    · rw [List.find?_cons_of_pos (p := fun (l : Location) => l.fingerprint == fp) _ h0] at h
      injection h with h
      subst h
      rw [List.map_cons, if_pos h0]
      apply List.find?_cons_of_pos
      rw [mergeLocation_fingerprint]
      exact h0
    · rw [List.find?_cons_of_neg (p := fun (l : Location) => l.fingerprint == fp) _ h0] at h
      rw [List.map_cons, if_neg h0,
        List.find?_cons_of_neg (p := fun (l : Location) => l.fingerprint == fp) _ h0]
      exact ih loc h

/-- C2 counterexample: a matched Location field holding the empty string
is non-null yet is overwritten by the incoming value, because the source
tests Python truthiness, not nullness. -/
theorem location_empty_string_overwritten :
    locEmptyAddr.address = some "" ∧ locEmptyAddr.address ≠ none
  ∧ ((upsert_location pLoc { locations := [locEmptyAddr] }).2).locations.map (fun l => l.address)
      = [some "Hauptstraße 1"] := by
  refine ⟨rfl, by decide, by decide⟩

/-- C2 (amended): for an existing Location matched by fingerprint, upsert
only fills fields whose current value is null or empty; a field holding a
non-empty value is never replaced, and a null field is filled from a
truthy payload value.  The matched row after the upsert is exactly the
merge of the old row. -/
theorem upsert_location_merge (p : EventPayload) (db : DB) (loc : Location)
    (hguard : (truthyStr p.location_name || truthyStr p.location_address || truthyStr p.location_city) = true)
    (hfind : db.locations.find? (fun l => l.fingerprint == fingerprintSource p) = some loc) :
    (((upsert_location p db).2).locations.find?
        (fun l => l.fingerprint == fingerprintSource p) = some (mergeLocation p loc))
  ∧ (truthyStr loc.name = true → (mergeLocation p loc).name = loc.name)
  ∧ (truthyStr loc.address = true → (mergeLocation p loc).address = loc.address)
  ∧ (truthyStr loc.city = true → (mergeLocation p loc).city = loc.city)
  ∧ (loc.name = none → truthyStr p.location_name = true → (mergeLocation p loc).name = p.location_name)
  ∧ (loc.address = none → truthyStr p.location_address = true → (mergeLocation p loc).address = p.location_address)
  ∧ (loc.city = none → truthyStr p.location_city = true → (mergeLocation p loc).city = p.location_city) := by
  refine ⟨?_, ?_, ?_, ?_, ?_, ?_, ?_⟩
  · simp only [upsert_location, hguard, Bool.not_true, Bool.false_eq_true, if_false, hfind]
    exact find?_map_merge p (fingerprintSource p) db.locations loc hfind
  · intro ht
    simp [mergeLocation, ht]
  · intro ht
    simp [mergeLocation, ht]
  · intro ht
    simp [mergeLocation, ht]
  · intro hn ht
    simp [mergeLocation, hn, ht, truthyStr_none]
  · intro hn ht
    simp [mergeLocation, hn, ht, truthyStr_none]
  · intro hn ht
    simp [mergeLocation, hn, ht, truthyStr_none]

/-- C2 witness: the specification example with a matched fingerprint: the
populated city Aachen is kept while the null address is filled. -/
theorem upsert_location_merge_witness :
    (((upsert_location pLoc { locations := [locNullAddr] }).2).locations.find?
        (fun l => l.fingerprint == fingerprintSource pLoc) = some (mergeLocation pLoc locNullAddr))
  ∧ (mergeLocation pLoc locNullAddr).city = some "Aachen"
  ∧ (mergeLocation pLoc locNullAddr).address = some "Hauptstraße 1" := by
  have h := upsert_location_merge pLoc { locations := [locNullAddr] } locNullAddr (by decide) (by decide)
  refine ⟨h.1, ?_, ?_⟩
  · rw [h.2.2.2.1 (by decide)]
    rfl
  · rw [h.2.2.2.2.2.1 (by decide) (by decide)]
    rfl

theorem find?_map_replace_offer (k : String) (new : Offer) (hnew : new.external_id = k) :
    ∀ (l : List Offer) (o : Offer),
      l.find? (fun x => x.external_id == k) = some o →
      (l.map (fun x => if x.external_id == k then new else x)).find?
        (fun x => x.external_id == k) = some new := by
  intro l
  induction l with
  | nil => intro o h; cases h
  | cons x0 rest ih =>
    intro o h
    by_cases h0 : (x0.external_id == k) = true
    · rw [List.map_cons, if_pos h0]
      apply List.find?_cons_of_pos
      rw [hnew]
      exact beq_self_eq_true k
    · rw [List.find?_cons_of_neg (p := fun (x : Offer) => x.external_id == k) _ h0] at h
      rw [List.map_cons, if_neg h0,
        List.find?_cons_of_neg (p := fun (x : Offer) => x.external_id == k) _ h0]
      exact ih o h

theorem persist_find_found (slug nm : String) (p : EventPayload) (db : DB) (o : Offer)
    (hfind : db.offers.find? (fun x => x.external_id == slug ++ ":" ++ p.external_id) = some o) :
    ((persist_event slug nm p db).2).offers.find?
        (fun x => x.external_id == slug ++ ":" ++ p.external_id)
      = some (setCats p (persistCats p (upsert_location p db).2).1
          (attachLoc (upsert_location p db).1 (applyPayload p o))) := by
  have hkey : o.external_id = slug ++ ":" ++ p.external_id := by
    have h := List.find?_some hfind
    simpa using h
  have hnew : (setCats p (persistCats p (upsert_location p db).2).1
      (attachLoc (upsert_location p db).1 (applyPayload p o))).external_id
      = slug ++ ":" ++ p.external_id := by
    rw [setCats_external_id, attachLoc_external_id, applyPayload_external_id, hkey]
  simp only [persist_event, hfind, Option.isNone_some, Bool.false_eq_true, if_false]
  have hoffers : ((persistCats p (upsert_location p db).2).2).offers = db.offers := by
    rw [persistCats_offers, upsert_location_offers]
  rw [hoffers]
  exact find?_map_replace_offer _ _ hnew db.offers o hfind

theorem setCats_descriptive (p : EventPayload) (cats : List Category) (o : Offer) :
    (setCats p cats o).title = o.title ∧ (setCats p cats o).description = o.description
  ∧ (setCats p cats o).source_url = o.source_url ∧ (setCats p cats o).summary = o.summary
  ∧ (setCats p cats o).image = o.image ∧ (setCats p cats o).dt_start = o.dt_start
  ∧ (setCats p cats o).dt_end = o.dt_end ∧ (setCats p cats o).is_free = o.is_free
  ∧ (setCats p cats o).is_outdoor = o.is_outdoor := by
  simp only [setCats]
  split <;> exact ⟨rfl, rfl, rfl, rfl, rfl, rfl, rfl, rfl, rfl⟩

theorem attachLoc_descriptive (fp : Option String) (o : Offer) :
    (attachLoc fp o).title = o.title ∧ (attachLoc fp o).description = o.description
  ∧ (attachLoc fp o).source_url = o.source_url ∧ (attachLoc fp o).summary = o.summary
  ∧ (attachLoc fp o).image = o.image ∧ (attachLoc fp o).dt_start = o.dt_start
  ∧ (attachLoc fp o).dt_end = o.dt_end ∧ (attachLoc fp o).is_free = o.is_free
  ∧ (attachLoc fp o).is_outdoor = o.is_outdoor := by
  cases fp <;> exact ⟨rfl, rfl, rfl, rfl, rfl, rfl, rfl, rfl, rfl⟩

theorem applyPayload_fields (p : EventPayload) (o : Offer) :
    (applyPayload p o).title = p.title ∧ (applyPayload p o).description = p.description
  ∧ (applyPayload p o).source_url = p.source_url ∧ (applyPayload p o).dt_start = p.dt_start
  ∧ (applyPayload p o).dt_end = p.dt_end
  ∧ (applyPayload p o).summary = some (summaryOf p)
  ∧ (applyPayload p o).image = (if truthyStr p.image_url then p.image_url else o.image)
  ∧ (applyPayload p o).is_free = (match p.is_free with | some b => some b | none => o.is_free)
  ∧ (applyPayload p o).is_outdoor = (match p.is_outdoor with | some b => some b | none => o.is_outdoor) := by
  simp only [applyPayload, summaryOf]
  split <;> split <;> exact ⟨rfl, rfl, rfl, rfl, rfl, rfl, rfl, rfl, rfl⟩

/-- C6 counterexample: the free flag is not unconditionally overwritten:
a re-crawl payload without the flag leaves the stored value in place, so
the Offer field does not equal the record field after upsert. -/
theorem persist_flags_not_overwritten :
    ((persist_event "s" "n" bareUpdate { offers := [oldOffer] }).2).offers.map (fun o => o.is_free)
      = [some true]
  ∧ bareUpdate.is_free = none
  ∧ ¬ ((persist_event "s" "n" bareUpdate { offers := [oldOffer] }).2).offers.map (fun o => o.is_free)
      = [bareUpdate.is_free] := by
  refine ⟨by decide, rfl, by decide⟩

/-- C6 (amended): on upsert of an existing Offer, title, description,
source URL and both timestamps are unconditionally overwritten from the
record; the image only when the record image is truthy, else kept; each
flag only when the record carries it, else kept; and the summary is the
derived value summaryOf (record summary if truthy, else the first 380
characters of the description, capped at 400, with price text substituted
into an empty result). -/
theorem persist_overwrites (slug nm : String) (p : EventPayload) (db : DB) (o o' : Offer)
    (hfind : db.offers.find? (fun x => x.external_id == offerKey slug p) = some o)
    (hafter : ((persist_event slug nm p db).2).offers.find?
        (fun x => x.external_id == offerKey slug p) = some o') :
    o'.title = p.title ∧ o'.description = p.description ∧ o'.source_url = p.source_url
  ∧ o'.dt_start = p.dt_start ∧ o'.dt_end = p.dt_end
  ∧ (truthyStr p.image_url = true → o'.image = p.image_url)
  ∧ (truthyStr p.image_url = false → o'.image = o.image)
  ∧ (∀ b, p.is_free = some b → o'.is_free = some b)
  ∧ (p.is_free = none → o'.is_free = o.is_free)
  ∧ (∀ b, p.is_outdoor = some b → o'.is_outdoor = some b)
  ∧ (p.is_outdoor = none → o'.is_outdoor = o.is_outdoor)
  ∧ o'.summary = some (summaryOf p) := by
  have hfind2 : db.offers.find? (fun x => x.external_id == slug ++ ":" ++ p.external_id) = some o := hfind
  have hU := persist_find_found slug nm p db o hfind2
  have hafter2 : ((persist_event slug nm p db).2).offers.find?
      (fun x => x.external_id == slug ++ ":" ++ p.external_id) = some o' := hafter
  rw [hU] at hafter2
  injection hafter2 with hEq
  subst hEq
  obtain ⟨s1, s2, s3, s4, s5, s6, s7, s8, s9⟩ := setCats_descriptive p
    (persistCats p (upsert_location p db).2).1 (attachLoc (upsert_location p db).1 (applyPayload p o))
  obtain ⟨a1, a2, a3, a4, a5, a6, a7, a8, a9⟩ := attachLoc_descriptive
    (upsert_location p db).1 (applyPayload p o)
  obtain ⟨f1, f2, f3, f4, f5, f6, f7, f8, f9⟩ := applyPayload_fields p o
  refine ⟨?_, ?_, ?_, ?_, ?_, ?_, ?_, ?_, ?_, ?_, ?_, ?_⟩
  · rw [s1, a1, f1]
  · rw [s2, a2, f2]
  · rw [s3, a3, f3]
  · rw [s6, a6, f4]
  · rw [s7, a7, f5]
  · intro ht
    rw [s5, a5, f7, if_pos ht]
  · intro ht
    simp [s5, a5, f7, ht]
  · intro b hb
    rw [s8, a8, f8, hb]
  · intro hb
    rw [s8, a8, f8, hb]
  · intro b hb
    rw [s9, a9, f9, hb]
  · intro hb
    rw [s9, a9, f9, hb]
  · rw [s4, a4, f6]

/-- C6 witness: the amended overwrite theorem applied to a concrete
re-crawl over an existing row: title and start time follow the record,
flag and image are kept, the summary is the derived value. -/
theorem persist_overwrites_witness :
    updOffer.title = bareUpdate.title
  ∧ updOffer.dt_start = bareUpdate.dt_start
  ∧ updOffer.is_free = oldOffer.is_free
  ∧ updOffer.image = oldOffer.image
  ∧ updOffer.summary = some (summaryOf bareUpdate) := by
  obtain ⟨h1, h2, h3, h4, h5, h6, h7, h8, h9, h10, h11, h12⟩ :=
    persist_overwrites "s" "n" bareUpdate { offers := [oldOffer] } oldOffer updOffer
      (by decide) (by decide)
  exact ⟨h1, h4, h9 rfl, h7 rfl, h12⟩

theorem goc_slug (n : String) (db : DB) :
    ((get_or_create_category n db).1).slug = slugify n := by
  simp only [get_or_create_category]
  split
  · rename_i c hc
    simpa using List.find?_some hc
  · rfl

theorem goc_cats_mono (n : String) (db : DB) (s : String)
    (h : s ∈ db.categories.map (fun c => c.slug)) :
    s ∈ ((get_or_create_category n db).2).categories.map (fun c => c.slug) := by
  simp only [get_or_create_category]
  split
  · exact h
  · simp only [List.map_append]
    exact List.mem_append_left _ h

theorem goc_mem_self (n : String) (db : DB) :
    slugify n ∈ ((get_or_create_category n db).2).categories.map (fun c => c.slug) := by
  simp only [get_or_create_category]
  split
  · rename_i c hc
    exact List.mem_map.mpr ⟨c, List.mem_of_find?_eq_some hc, by simpa using List.find?_some hc⟩
  · simp only [List.map_append]
    apply List.mem_append_right
    simp

theorem get_categories_slugs : ∀ (ns : List String) (db : DB),
    ((get_categories ns db).1).map (fun c => c.slug) = ns.map slugify := by
  intro ns
  induction ns with
  | nil => intro db; rfl
  | cons n rest ih =>
    intro db
    simp only [get_categories, List.map_cons]
    rw [goc_slug, ih]

theorem get_categories_cats_mono : ∀ (ns : List String) (db : DB) (s : String),
    s ∈ db.categories.map (fun c => c.slug) →
    s ∈ ((get_categories ns db).2).categories.map (fun c => c.slug) := by
  intro ns
  induction ns with
  | nil => intro db s h; exact h
  | cons n rest ih =>
    intro db s h
    simp only [get_categories]
    exact ih _ s (goc_cats_mono n db s h)

theorem get_categories_mem : ∀ (ns : List String) (db : DB) (n : String), n ∈ ns →
    slugify n ∈ ((get_categories ns db).2).categories.map (fun c => c.slug) := by
  intro ns
  induction ns with
  | nil => intro db n h; cases h
  | cons m rest ih =>
    intro db n h
    simp only [get_categories]
    rcases List.mem_cons.mp h with h1 | h2
    · subst h1
      exact get_categories_cats_mono rest _ _ (goc_mem_self n db)
    · exact ih _ n h2

theorem upsert_location_categories (p : EventPayload) (db : DB) :
    ((upsert_location p db).2).categories = db.categories := by
  simp only [upsert_location]
  split
  · rfl
  · split <;> rfl

theorem persist_event_categories (slug nm : String) (p : EventPayload) (db : DB) (o : Offer)
    (hfind : db.offers.find? (fun x => x.external_id == slug ++ ":" ++ p.external_id) = some o) :
    ((persist_event slug nm p db).2).categories
      = ((persistCats p (upsert_location p db).2).2).categories := by
  simp only [persist_event, hfind, Option.isNone_some, Bool.false_eq_true, if_false]

theorem attachLoc_category_slugs (fp : Option String) (o : Offer) :
    (attachLoc fp o).category_slugs = o.category_slugs := by
  cases fp <;> rfl

theorem applyPayload_category_slugs (p : EventPayload) (o : Offer) :
    (applyPayload p o).category_slugs = o.category_slugs := by
  simp only [applyPayload]
  split <;> split <;> rfl

/-- C7 counterexample: an empty record category list does not clear the
association: the existing categories survive the upsert, contradicting
replace-not-append for the empty list. -/
theorem persist_empty_categories_not_cleared :
    ((persist_event "s" "n" bareUpdate { offers := [oldOffer] }).2).offers.map
        (fun o => o.category_slugs) = [["musik"]]
  ∧ bareUpdate.categories = [] := by
  exact ⟨by decide, rfl⟩

/-- C7 (amended): when the record carries a non-empty category list, the
association is replaced by exactly the slugs of its non-empty labels, each
backed by a Category row; when the list is empty the association is left
untouched. -/
theorem persist_category_replacement (slug nm : String) (p : EventPayload) (db : DB) (o o' : Offer)
    (hfind : db.offers.find? (fun x => x.external_id == offerKey slug p) = some o)
    (hafter : ((persist_event slug nm p db).2).offers.find?
        (fun x => x.external_id == offerKey slug p) = some o') :
    (p.categories ≠ [] →
      o'.category_slugs = (p.categories.filter (fun n => !(n == ""))).map slugify)
  ∧ (p.categories = [] → o'.category_slugs = o.category_slugs)
  ∧ (∀ n ∈ p.categories.filter (fun n => !(n == "")),
      slugify n ∈ ((persist_event slug nm p db).2).categories.map (fun c => c.slug)) := by
  have hfind2 : db.offers.find? (fun x => x.external_id == slug ++ ":" ++ p.external_id) = some o := hfind
  have hU := persist_find_found slug nm p db o hfind2
  have hafter2 : ((persist_event slug nm p db).2).offers.find?
      (fun x => x.external_id == slug ++ ":" ++ p.external_id) = some o' := hafter
  rw [hU] at hafter2
  injection hafter2 with hEq
  subst hEq
  refine ⟨?_, ?_, ?_⟩
  · intro hne
    have hie : p.categories.isEmpty = false := by
      cases hc : p.categories with
      | nil => exact absurd hc hne
      | cons a l => rfl
    simp only [setCats, hie, Bool.false_eq_true, if_false, persistCats]
    rw [get_categories_slugs]
  · intro he
    have hie : p.categories.isEmpty = true := by rw [he]; rfl
    simp only [setCats, hie, if_true]
    rw [attachLoc_category_slugs, applyPayload_category_slugs]
  · intro n hn
    have hie : p.categories.isEmpty = false := by
      cases hc : p.categories with
      | nil => rw [hc] at hn; cases hn
      | cons a l => rfl
    rw [persist_event_categories slug nm p db o hfind2]
    simp only [persistCats, hie, Bool.false_eq_true, if_false]
    exact get_categories_mem _ _ n hn

/-- C7 witness: the amended replacement theorem at a record carrying two
diacritic-distinct labels and one empty label over an offer already
associated with another category. -/
theorem persist_category_replacement_witness :
    catUpdOffer.category_slugs = (catUpdate.categories.filter (fun n => !(n == ""))).map slugify
  ∧ catUpdOffer.category_slugs = ["ffentlich", "offentlich"]
  ∧ slugify "Öffentlich" ∈ ((persist_event "s" "n" catUpdate { offers := [oldOffer] }).2).categories.map
      (fun c => c.slug) := by
  obtain ⟨h1, h2, h3⟩ := persist_category_replacement "s" "n" catUpdate { offers := [oldOffer] }
    oldOffer catUpdOffer (by decide) (by decide)
  exact ⟨h1 (by decide), by decide, h3 "Öffentlich" (by decide)⟩

/-! ## Theorems: listing paginator -/

theorem processItems_cons_none (join : String → String) (it : ListingItem)
    (rest : List ListingItem) (seen : List String) (hh : it.href = none) :
    processItems join (it :: rest) seen = processItems join rest seen := by
  cases it with
  | mk href => cases hh; rfl

theorem processItems_cons_some (join : String → String) (it : ListingItem)
    (rest : List ListingItem) (seen : List String) (s : String) (hh : it.href = some s) :
    processItems join (it :: rest) seen =
      (if s = "" then processItems join rest seen
       else
         if join s ∈ seen then processItems join rest seen
         else (join s :: (processItems join rest (join s :: seen)).1,
               (processItems join rest (join s :: seen)).2)) := by
  cases it with
  | mk href => cases hh; rfl

theorem processItems_seen_mono (join : String → String) :
    ∀ (items : List ListingItem) (seen : List String) (u : String),
      u ∈ seen → u ∈ (processItems join items seen).2 := by
  intro items
  induction items with
  | nil => intro seen u h; exact h
  | cons it rest ih =>
    intro seen u h
    cases hh : it.href with
    | none =>
      rw [processItems_cons_none join it rest seen hh]
      exact ih seen u h
    | some s =>
      rw [processItems_cons_some join it rest seen s hh]
      by_cases hs : s = ""
      · rw [if_pos hs]
        exact ih seen u h
      · rw [if_neg hs]
        by_cases hseen : join s ∈ seen
        · rw [if_pos hseen]
          exact ih seen u h
        · rw [if_neg hseen]
          exact ih _ u (List.mem_cons_of_mem _ h)

theorem processItems_seen_adds (join : String → String) :
    ∀ (items : List ListingItem) (seen : List String) (it : ListingItem) (s : String),
      it ∈ items → it.href = some s → ¬(s = "") →
      join s ∈ (processItems join items seen).2 := by
  intro items
  induction items with
  | nil => intro seen it s h; cases h
  | cons it0 rest ih =>
    intro seen it s hmem hhref hne
    rcases List.mem_cons.mp hmem with h1 | h2
    · subst h1
      rw [processItems_cons_some join it rest seen s hhref, if_neg hne]
      by_cases hseen : join s ∈ seen
      · rw [if_pos hseen]
        exact processItems_seen_mono join rest seen _ hseen
      · rw [if_neg hseen]
        exact processItems_seen_mono join rest _ _ (List.mem_cons_self _ _)
    · cases hh : it0.href with
      | none =>
        rw [processItems_cons_none join it0 rest seen hh]
        exact ih seen it s h2 hhref hne
      | some s0 =>
        rw [processItems_cons_some join it0 rest seen s0 hh]
        by_cases hs : s0 = ""
        · rw [if_pos hs]
          exact ih seen it s h2 hhref hne
        · rw [if_neg hs]
          by_cases hseen : join s0 ∈ seen
          · rw [if_pos hseen]
            exact ih seen it s h2 hhref hne
          · rw [if_neg hseen]
            exact ih _ it s h2 hhref hne

theorem processItems_no_new (join : String → String) :
    ∀ (items : List ListingItem) (seen : List String),
      (∀ it ∈ items, ∀ s, it.href = some s → ¬(s = "") → join s ∈ seen) →
      (processItems join items seen).1 = [] := by
  intro items
  induction items with
  | nil => intro seen _; rfl
  | cons it0 rest ih =>
    intro seen h
    have hrest : ∀ it ∈ rest, ∀ s, it.href = some s → ¬(s = "") → join s ∈ seen :=
      fun it hit s => h it (List.mem_cons_of_mem _ hit) s
    cases hh : it0.href with
    | none =>
      rw [processItems_cons_none join it0 rest seen hh]
      exact ih seen hrest
    | some s0 =>
      rw [processItems_cons_some join it0 rest seen s0 hh]
      by_cases hs : s0 = ""
      · rw [if_pos hs]
        exact ih seen hrest
      · rw [if_neg hs, if_pos (h it0 (List.mem_cons_self _ _) s0 hh hs)]
        exact ih seen hrest

theorem processItems_twice (join : String → String) (items : List ListingItem)
    (seen : List String) :
    (processItems join items (processItems join items seen).2).1 = [] :=
  processItems_no_new join items _
    (fun it hit s hs hne => processItems_seen_adds join items seen it s hit hs hne)

theorem fetchPages_succ (pages : Nat → List ListingItem) (join : String → String)
    (fuel page : Nat) (seen acc : List String) :
    fetchPages pages join (fuel + 1) page seen acc =
      (if (pages page).isEmpty then some (page, acc)
       else
         if (processItems join (pages page) seen).1.isEmpty then some (page, acc)
         else fetchPages pages join fuel (page + 1) (processItems join (pages page) seen).2
           (acc ++ (processItems join (pages page) seen).1)) := rfl

theorem fetchPages_two_step (pages : Nat → List ListingItem) (join : String → String)
    (page : Nat) (seen acc : List String) (hrep : pages (page + 1) = pages page) :
    (fetchPages pages join 2 page seen acc).isSome = true := by
  rw [show (2 : Nat) = 1 + 1 from rfl, fetchPages_succ]
  split
  · rfl
  · split
    · rfl
    · rw [fetchPages_succ, hrep]
      split
      · rfl
      · rw [processItems_twice]
        simp

theorem fetchPages_terminates (pages : Nat → List ListingItem) (join : String → String)
    (N : Nat) (hconst : ∀ n, N ≤ n → pages n = pages N) :
    ∀ (k page : Nat) (seen acc : List String), N + 1 ≤ page + k →
      (fetchPages pages join (k + 2) page seen acc).isSome = true := by
  intro k
  induction k with
  | zero =>
    intro page seen acc hle
    apply fetchPages_two_step
    rw [hconst (page + 1) (by omega), hconst page (by omega)]
  | succ k ih =>
    intro page seen acc hle
    rw [show k + 1 + 2 = (k + 2) + 1 from rfl, fetchPages_succ]
    split
    · rfl
    · split
      · rfl
      · exact ih (page + 1) _ _ (by omega)

/-- C4: the paginator terminates on every listing source that eventually
repeats one fixed page forever (in particular on a source whose last page
is re-served indefinitely, and on one that eventually serves empty
pages): from the point the pages stop changing, one more fetch sees only
already-seen detail links and the zero-new-items break fires. -/
theorem fetch_pagination_terminates (pages : Nat → List ListingItem) (join : String → String)
    (N : Nat) (hconst : ∀ n, N ≤ n → pages n = pages N) :
    (crawlerFetch pages join (N + 2)).isSome = true := by
  unfold crawlerFetch
  exact fetchPages_terminates pages join N hconst N 1 [] [] (by omega)

/-- C4 witness: three pages of which page 3 duplicates page 2 (and the
last page repeats forever): the loop stops after fetching page 3, having
yielded the two distinct links. -/
theorem fetch_pagination_terminates_witness :
    (crawlerFetch exPages id (2 + 2)).isSome = true
  ∧ crawlerFetch exPages id 4 = some (3, ["a", "b"]) := by
  constructor
  · apply fetch_pagination_terminates exPages id 2
    intro n hn
    have hne : ¬(n = 1) := by omega
    simp [exPages, hne]
  · decide

/-! ## Theorems: geocoding resolver -/

theorem tryProviders_none (query : String) :
    ∀ (fns : List (String → ProviderOutcome)),
      (∀ fn ∈ fns, ∀ r, fn query ≠ ProviderOutcome.found r) →
      tryProviders query fns = none := by
  intro fns
  induction fns with
  | nil => intro _; rfl
  | cons fn rest ih =>
    intro h
    simp only [tryProviders]
    cases hf : fn query with
    | found r => exact absurd hf (h fn (List.mem_cons_self _ _) r)
    | empty => exact ih (fun g hg => h g (List.mem_cons_of_mem _ hg))
    | raised => exact ih (fun g hg => h g (List.mem_cons_of_mem _ hg))

/-- C5: resolve is a total function (raising is impossible by
construction) with the try-then-fallback-then-None contract: an empty
query or disabled enrichment yields None, a preferred nominatim that
raises or finds nothing hands the query to photon when fallback is
enabled and returns its hit, and when every provider in the order raises
or finds nothing the call returns None. -/
theorem geocode_fallback (settings : GeoSettings) (nominatim photon : String → ProviderOutcome)
    (query : String) :
    (query = "" → geocode_address settings nominatim photon query = none)
  ∧ (settings.enrich_geocode = false → geocode_address settings nominatim photon query = none)
  ∧ ((∀ r, nominatim query ≠ ProviderOutcome.found r) →
     (∀ r, photon query ≠ ProviderOutcome.found r) →
     geocode_address settings nominatim photon query = none)
  ∧ (pyLower (pyOrString (settings.geocoder.getD "") "nominatim") = "nominatim" →
     settings.enrich_geocode = true → settings.allow_fallback = true → ¬(query = "") →
     (∀ r, nominatim query ≠ ProviderOutcome.found r) →
     ∀ r, photon query = ProviderOutcome.found r →
       geocode_address settings nominatim photon query = some r) := by
  refine ⟨?_, ?_, ?_, ?_⟩
  · intro h
    simp [geocode_address, h]
  · intro h
    simp [geocode_address, h]
  · intro hn hp
    simp only [geocode_address]
    split
    · rfl
    · apply tryProviders_none
      intro fn hfn r
      have hOr : fn = nominatim ∨ fn = photon := by
        split at hfn
        · split at hfn
          · simp only [List.mem_cons, List.mem_singleton] at hfn
            tauto
          · simp only [List.mem_singleton] at hfn
            tauto
        · split at hfn
          · split at hfn
            · simp only [List.mem_cons, List.mem_singleton] at hfn
              tauto
            · simp only [List.mem_singleton] at hfn
              tauto
          · simp only [List.mem_cons, List.mem_singleton] at hfn
            tauto
      rcases hOr with h | h
      · exact h ▸ hn r
      · exact h ▸ hp r
  · intro hpref henr hfb hq hn r hr
    have hcond : (query = "" || !settings.enrich_geocode) = false := by
      simp [hq, henr]
    simp only [geocode_address, hcond, Bool.false_eq_true, if_false, hpref, hfb, if_true, if_pos]
    simp only [tryProviders]
    cases hnq : nominatim query with
    | found r0 => exact absurd hnq (hn r0)
    | empty =>
      rw [hr]
    | raised =>
      rw [hr]

/-- C5 witness: a raising primary falls back to a secondary that resolves
the query; two raising providers yield None; an empty query yields
None. -/
theorem geocode_fallback_witness :
    geocode_address {} exNominatim exPhoton "Marktplatz, Aachen" = some exHit
  ∧ geocode_address {} exNominatim exNominatim "Marktplatz, Aachen" = none
  ∧ geocode_address {} exNominatim exPhoton "" = none := by
  refine ⟨?_, ?_, ?_⟩
  · exact (geocode_fallback {} exNominatim exPhoton "Marktplatz, Aachen").2.2.2
      (by decide) rfl rfl (by decide)
      (fun r hr => by simp [exNominatim] at hr) exHit (by decide)
  · exact (geocode_fallback {} exNominatim exNominatim "Marktplatz, Aachen").2.2.1
      (fun r hr => by simp [exNominatim] at hr)
      (fun r hr => by simp [exNominatim] at hr)
  · exact (geocode_fallback {} exNominatim exPhoton "").1 rfl

/-! ## Theorems: pipeline orchestrator -/

/-- C8 counterexample: a caller-supplied limit of 0 is falsy in the
truncation guard, so the whole listing is processed instead of
min(found, 0) = 0. -/
theorem run_slug_limit_zero_noop :
    (run_slug exStages "ts" "sl" (some 0)).found = 2
  ∧ (run_slug exStages "ts" "sl" (some 0)).processed = 2
  ∧ ¬ (run_slug exStages "ts" "sl" (some 0)).processed
      = min (run_slug exStages "ts" "sl" (some 0)).found 0 := by
  refine ⟨by decide, by decide, by decide⟩

/-- C8 (amended): found always reports the full listing count, and the
limit truncates the url list handed to extraction only when it is truthy:
a missing or zero limit processes everything, a positive limit processes
min(found, limit), and a negative limit drops that many urls from the
end. -/
theorem run_slug_limit (st : Stages) (now : String) (slug : String) (limit : Option Int) :
    (run_slug st now slug limit).found = (st.fetch_listing slug).length
  ∧ (limit = none → (run_slug st now slug limit).processed = (st.fetch_listing slug).length)
  ∧ (limit = some 0 → (run_slug st now slug limit).processed = (st.fetch_listing slug).length)
  ∧ (∀ n : Int, limit = some n → 0 < n →
      (run_slug st now slug limit).processed = min (st.fetch_listing slug).length n.toNat)
  ∧ (∀ n : Int, limit = some n → n < 0 →
      (run_slug st now slug limit).processed = (st.fetch_listing slug).length - (-n).toNat) := by
  refine ⟨?_, ?_, ?_, ?_, ?_⟩
  · rfl
  · intro h
    subst h
    simp [run_slug]
  · intro h
    subst h
    simp [run_slug]
  · intro n hl hpos
    subst hl
    have hne : ¬(n = 0) := by omega
    have hnonneg : 0 ≤ n := by omega
    simp only [run_slug, pySliceTake, if_neg hne, if_pos hnonneg]
    simp [List.length_take, Nat.min_comm]
  · intro n hl hneg
    subst hl
    have hne : ¬(n = 0) := by omega
    have hnonneg : ¬(0 ≤ n) := by omega
    simp only [run_slug, pySliceTake, if_neg hne, if_neg hnonneg]
    simp only [List.length_take, List.length_map]
    exact Nat.min_eq_left (Nat.sub_le _ _)

/-- C8 witness: found and processed separate under a positive limit of 1
on a two-row listing: found stays 2, processed is 1. -/
theorem run_slug_limit_witness :
    (run_slug exStages "ts" "sl" (some 1)).found = 2
  ∧ (run_slug exStages "ts" "sl" (some 1)).processed = 1 := by
  obtain ⟨h1, h2, h3, h4, h5⟩ := run_slug_limit exStages "ts" "sl" (some 1)
  constructor
  · exact h1.trans (by decide)
  · rw [h4 1 rfl (by decide)]
    decide

theorem okReports_cons (runOne : String → Except String RunReport) (s : String)
    (rest : List String) :
    okReports runOne (s :: rest)
      = (match runOne s with
         | Except.ok r => r :: okReports runOne rest
         | Except.error _ => okReports runOne rest) := by
  simp only [okReports, List.filterMap_cons]
  cases runOne s <;> rfl

theorem okReports_length_le (runOne : String → Except String RunReport) :
    ∀ (slugs : List String), (okReports runOne slugs).length ≤ slugs.length := by
  intro slugs
  induction slugs with
  | nil => exact Nat.le_refl 0
  | cons s rest ih =>
    rw [okReports_cons]
    cases runOne s
    · simpa using Nat.le_succ_of_le ih
    · simpa using Nat.succ_le_succ ih

theorem run_all_go_by_slug (runOne : String → Except String RunReport) :
    ∀ (slugs : List String) (acc : BatchSummary),
      (slugs.foldl (runAllStep runOne) acc).by_slug
        = acc.by_slug ++ slugs.map (entryOf runOne) := by
  intro slugs
  induction slugs with
  | nil => intro acc; simp
  | cons s rest ih =>
    intro acc
    rw [List.foldl_cons, ih]
    have hstep : (runAllStep runOne acc s).by_slug = acc.by_slug ++ [entryOf runOne s] := by
      simp only [runAllStep, entryOf]
      cases runOne s <;> rfl
    rw [hstep, List.map_cons, List.append_assoc]
    rfl

theorem run_all_go_found (runOne : String → Except String RunReport) :
    ∀ (slugs : List String) (acc : BatchSummary),
      (slugs.foldl (runAllStep runOne) acc).total_found
        = acc.total_found + ((okReports runOne slugs).map (fun r => r.found)).sum := by
  intro slugs
  induction slugs with
  | nil => intro acc; simp [okReports]
  | cons s rest ih =>
    intro acc
    rw [List.foldl_cons, ih, okReports_cons]
    cases hr : runOne s <;> (simp only [runAllStep, hr, List.map_cons, List.sum_cons, List.length_cons]; try omega)

theorem run_all_go_processed (runOne : String → Except String RunReport) :
    ∀ (slugs : List String) (acc : BatchSummary),
      (slugs.foldl (runAllStep runOne) acc).total_processed
        = acc.total_processed + ((okReports runOne slugs).map (fun r => r.processed)).sum := by
  intro slugs
  induction slugs with
  | nil => intro acc; simp [okReports]
  | cons s rest ih =>
    intro acc
    rw [List.foldl_cons, ih, okReports_cons]
    cases hr : runOne s <;> (simp only [runAllStep, hr, List.map_cons, List.sum_cons, List.length_cons]; try omega)

theorem run_all_go_inserted (runOne : String → Except String RunReport) :
    ∀ (slugs : List String) (acc : BatchSummary),
      (slugs.foldl (runAllStep runOne) acc).inserted
        = acc.inserted + ((okReports runOne slugs).map (fun r => r.inserted)).sum := by
  intro slugs
  induction slugs with
  | nil => intro acc; simp [okReports]
  | cons s rest ih =>
    intro acc
    rw [List.foldl_cons, ih, okReports_cons]
    cases hr : runOne s <;> (simp only [runAllStep, hr, List.map_cons, List.sum_cons, List.length_cons]; try omega)

theorem run_all_go_updated (runOne : String → Except String RunReport) :
    ∀ (slugs : List String) (acc : BatchSummary),
      (slugs.foldl (runAllStep runOne) acc).updated
        = acc.updated + ((okReports runOne slugs).map (fun r => r.updated)).sum := by
  intro slugs
  induction slugs with
  | nil => intro acc; simp [okReports]
  | cons s rest ih =>
    intro acc
    rw [List.foldl_cons, ih, okReports_cons]
    cases hr : runOne s <;> (simp only [runAllStep, hr, List.map_cons, List.sum_cons, List.length_cons]; try omega)

theorem run_all_go_skipped (runOne : String → Except String RunReport) :
    ∀ (slugs : List String) (acc : BatchSummary),
      (slugs.foldl (runAllStep runOne) acc).skipped
        = acc.skipped + ((okReports runOne slugs).map (fun r => r.skipped)).sum := by
  intro slugs
  induction slugs with
  | nil => intro acc; simp [okReports]
  | cons s rest ih =>
    intro acc
    rw [List.foldl_cons, ih, okReports_cons]
    cases hr : runOne s <;> (simp only [runAllStep, hr, List.map_cons, List.sum_cons, List.length_cons]; try omega)

theorem run_all_go_errors (runOne : String → Except String RunReport) :
    ∀ (slugs : List String) (acc : BatchSummary),
      (slugs.foldl (runAllStep runOne) acc).errors
        = acc.errors + ((okReports runOne slugs).map (fun r => r.errors)).sum
          + (slugs.length - (okReports runOne slugs).length) := by
  intro slugs
  induction slugs with
  | nil => intro acc; simp [okReports]
  | cons s rest ih =>
    intro acc
    have hle := okReports_length_le runOne rest
    rw [List.foldl_cons, ih, okReports_cons]
    cases hr : runOne s <;> (simp only [runAllStep, hr, List.map_cons, List.sum_cons, List.length_cons]; try omega)

theorem run_all_go_timestamp (runOne : String → Except String RunReport) :
    ∀ (slugs : List String) (acc : BatchSummary),
      (slugs.foldl (runAllStep runOne) acc).timestamp = acc.timestamp := by
  intro slugs
  induction slugs with
  | nil => intro acc; rfl
  | cons s rest ih =>
    intro acc
    rw [List.foldl_cons, ih]
    cases hr : runOne s <;> simp [runAllStep, hr]

/-- C9 counterexample: the batch summary dict does not have the per-slug
report shape: it lacks the slug, found, processed and error_samples keys,
carrying total_found and total_processed instead. -/
theorem batch_summary_shape_differs :
    ("slug" ∉ batchSummaryKeys) ∧ ("found" ∉ batchSummaryKeys)
  ∧ ("error_samples" ∉ batchSummaryKeys) ∧ ("total_found" ∈ batchSummaryKeys)
  ∧ ("slug" ∈ runReportKeys)
  ∧ batchSummaryKeys ≠ runReportKeys ++ ["by_slug"] := by
  refine ⟨by decide, by decide, by decide, by decide, by decide, by decide⟩

/-- C9 (amended): the batch summary keeps its own shape (total_found,
total_processed, inserted, updated, skipped, errors, by_slug, local
timestamp): each numeric field is the sum of the corresponding field over
the successful per-slug reports, errors additionally count one per
whole-slug failure, and by_slug holds one entry per slug in order — a
report for a success, a failure record for a raised slug — so a failure
never aborts the batch. -/
theorem run_all_aggregate (runOne : String → Except String RunReport) (now : String)
    (slugs : List String) :
    (run_all runOne now slugs).by_slug = slugs.map (entryOf runOne)
  ∧ (run_all runOne now slugs).by_slug.length = slugs.length
  ∧ (run_all runOne now slugs).total_found
      = ((okReports runOne slugs).map (fun r => r.found)).sum
  ∧ (run_all runOne now slugs).total_processed
      = ((okReports runOne slugs).map (fun r => r.processed)).sum
  ∧ (run_all runOne now slugs).inserted
      = ((okReports runOne slugs).map (fun r => r.inserted)).sum
  ∧ (run_all runOne now slugs).updated
      = ((okReports runOne slugs).map (fun r => r.updated)).sum
  ∧ (run_all runOne now slugs).skipped
      = ((okReports runOne slugs).map (fun r => r.skipped)).sum
  ∧ (run_all runOne now slugs).errors
      = ((okReports runOne slugs).map (fun r => r.errors)).sum
        + (slugs.length - (okReports runOne slugs).length)
  ∧ (run_all runOne now slugs).timestamp = now := by
  have h1 := run_all_go_by_slug runOne slugs
  have h2 := run_all_go_found runOne slugs
  have h3 := run_all_go_processed runOne slugs
  have h4 := run_all_go_inserted runOne slugs
  have h5 := run_all_go_updated runOne slugs
  have h6 := run_all_go_skipped runOne slugs
  have h7 := run_all_go_errors runOne slugs
  have h8 := run_all_go_timestamp runOne slugs
  refine ⟨?_, ?_, ?_, ?_, ?_, ?_, ?_, ?_, ?_⟩
  · rw [run_all, h1]
    simp
  · rw [run_all, h1]
    simp
  · rw [run_all, h2]
    simp
  · rw [run_all, h3]
    simp
  · rw [run_all, h4]
    simp
  · rw [run_all, h5]
    simp
  · rw [run_all, h6]
    simp
  · rw [run_all, h7]
    simp
  · rw [run_all, h8]
